import Mathlib

set_option linter.unusedVariables false

/-!
Verification of the shape-recognition and undo/redo core of a small
Direct2D sketch editor (sources: DrawingObject.h, DrawingObject.cpp,
Source.cpp).

Modelling conventions:
* The C++ code computes with IEEE single-precision floats; this
  development models the arithmetic exactly over `ℚ` (the float literals
  `2.0f`, `5.0f`, `10.0f`, `0.2f` become the rationals `2`, `5`, `10`,
  `1/5`).
* The only irrational quantity in the code is `L = sqrt(L_sq)` in
  `CFreehandStroke::Complement`, which is used solely inside the two
  comparisons `maxLineDeviation < LINE_TOLERANCE` and
  `maxLineDeviation > 5 * LINE_TOLERANCE`, where
  `maxLineDeviation = maxNum / (L > 0 ? L : 1)` and `maxNum ≥ 0` is the
  maximum of the absolute line-equation values.  These real comparisons
  are encoded exactly over `ℚ` by `lineDevLt` / `lineDevGt` (comparing
  squares when `L_sq > 0`); the lemmas `lineDevLt_eq_real` and
  `lineDevGt_eq_real` below prove the encodings equivalent to the real
  formulas with `Real.sqrt`.
* `std::vector` becomes `List`, `std::stack` becomes a `List` whose head
  is the stack top, shared/unique pointers become plain values, and the
  out-parameter of `FitEllipse` becomes an explicit argument/result pair.
-/

/-- D2D1_POINT_2F: a 2D point; the float coordinates are modelled as `ℚ`. -/
structure D2D1_POINT_2F where
  x : ℚ
  y : ℚ
deriving DecidableEq, Repr

/-- D2D1_ELLIPSE: an axis-aligned ellipse (center point plus the two radii). -/
structure D2D1_ELLIPSE where
  point : D2D1_POINT_2F
  radiusX : ℚ
  radiusY : ℚ
deriving DecidableEq, Repr

/-- D2D1_COLOR_F: an RGBA color. -/
structure D2D1_COLOR_F where
  r : ℚ
  g : ℚ
  b : ℚ
  a : ℚ
deriving DecidableEq, Repr

/-- The zero-initialised ellipse `{ 0 }` used for `m_complementEllipse`
and for the local `potentialEllipse` in `CFreehandStroke::Complement`. -/
def zeroEllipse : D2D1_ELLIPSE := ⟨⟨0, 0⟩, 0, 0⟩

/-- minX computed by the bounding-box loop of `FitEllipse`: initialised
with `points[0].x` and folded with `min` over all points.  (The `headD`
default is never consulted on the paths where this is used, because
`FitEllipse` first checks `points.size() >= 5`.) -/
def minXOf (points : List D2D1_POINT_2F) : ℚ :=
  points.foldl (fun acc p => min acc p.x) (points.headD ⟨0, 0⟩).x

/-- maxX computed by the bounding-box loop of `FitEllipse`. -/
def maxXOf (points : List D2D1_POINT_2F) : ℚ :=
  points.foldl (fun acc p => max acc p.x) (points.headD ⟨0, 0⟩).x

/-- minY computed by the bounding-box loop of `FitEllipse`. -/
def minYOf (points : List D2D1_POINT_2F) : ℚ :=
  points.foldl (fun acc p => min acc p.y) (points.headD ⟨0, 0⟩).y

/-- maxY computed by the bounding-box loop of `FitEllipse`. -/
def maxYOf (points : List D2D1_POINT_2F) : ℚ :=
  points.foldl (fun acc p => max acc p.y) (points.headD ⟨0, 0⟩).y

/-- centerX of `FitEllipse`: `(minX + maxX) / 2.0f`. -/
def centerXOf (points : List D2D1_POINT_2F) : ℚ := (minXOf points + maxXOf points) / 2

/-- centerY of `FitEllipse`: `(minY + maxY) / 2.0f`. -/
def centerYOf (points : List D2D1_POINT_2F) : ℚ := (minYOf points + maxYOf points) / 2

/-- radiusX of `FitEllipse`: `(maxX - minX) / 2.0f`. -/
def radiusXOf (points : List D2D1_POINT_2F) : ℚ := (maxXOf points - minXOf points) / 2

/-- radiusY of `FitEllipse`: `(maxY - minY) / 2.0f`. -/
def radiusYOf (points : List D2D1_POINT_2F) : ℚ := (maxYOf points - minYOf points) / 2

/-- The normalized squared deviation of one point from the bounding-box
ellipse: `|nx*nx + ny*ny - 1|` with `nx = (x - centerX) / radiusX` and
`ny = (y - centerY) / radiusY`.  The center and radii are parameters
because the source computes them once, before the deviation loop. -/
def normDev (cx cy rx ry : ℚ) (p : D2D1_POINT_2F) : ℚ :=
  let nx := (p.x - cx) / rx
  let ny := (p.y - cy) / ry
  |nx * nx + ny * ny - 1|

/-- maxDeviationSq of `FitEllipse`: initialised to `0.0f` and folded with
`max` over the per-point deviations. -/
def maxNormDevOf (points : List D2D1_POINT_2F) : ℚ :=
  points.foldl
    (fun acc p =>
      max acc (normDev (centerXOf points) (centerYOf points)
        (radiusXOf points) (radiusYOf points) p)) 0

/-- FitEllipse (DrawingObject.cpp).  The C++ signature writes the fitted
ellipse through an out-parameter and returns a `bool`; here the value of
the out-parameter before the call is passed in, and the pair
(return value, out-parameter value after the call) is returned.  The
out-parameter is written exactly when the size and radius checks pass,
as in the source; the `tolerance` parameter is unused in the source body
(the threshold `0.2f` is hard-coded) and is kept for fidelity. -/
def FitEllipse (points : List D2D1_POINT_2F) (tolerance : ℚ)
    (outEllipse : D2D1_ELLIPSE) : Bool × D2D1_ELLIPSE :=
  if points.length < 5 then (false, outEllipse)
  else if radiusXOf points < 10 ∨ radiusYOf points < 10 then (false, outEllipse)
  else
    (decide (maxNormDevOf points < 1/5),
     ⟨⟨centerXOf points, centerYOf points⟩, radiusXOf points, radiusYOf points⟩)

/-- start of `CFreehandStroke::Complement`: `m_points.front()`.  (Used
only when the point list is nonempty; the default is never consulted on
those paths.) -/
def startOf (points : List D2D1_POINT_2F) : D2D1_POINT_2F := points.headD ⟨0, 0⟩

/-- end of `CFreehandStroke::Complement`: `m_points.back()`. -/
def lastOf (points : List D2D1_POINT_2F) : D2D1_POINT_2F := points.getLastD ⟨0, 0⟩

/-- L_sq of `CFreehandStroke::Complement`: `dx*dx + dy*dy` for the vector
from the first to the last point. -/
def lsqOf (points : List D2D1_POINT_2F) : ℚ :=
  let dx := (lastOf points).x - (startOf points).x
  let dy := (lastOf points).y - (startOf points).y
  dx * dx + dy * dy

/-- The numerator of the point-to-line distance in
`CFreehandStroke::Complement`: `|A*p.x + B*p.y + C|` with
`A = end.y - start.y`, `B = start.x - end.x`,
`C = end.x*start.y - end.y*start.x` (`A`, `B`, `C` are loop-invariant in
the source, depending only on the first and last point `s`, `e`). -/
def lineNum (s e p : D2D1_POINT_2F) : ℚ :=
  |((e.y - s.y) * p.x + (s.x - e.x) * p.y + (e.x * s.y - e.y * s.x))|

/-- The maximum of the distance numerators over all points, folded from
`0.0f` as in the source loop.  The source's `maxLineDeviation` is this
value divided by `(L > 0 ? L : 1)` with `L = sqrt(L_sq)`. -/
def maxLineNumOf (points : List D2D1_POINT_2F) : ℚ :=
  points.foldl (fun acc p => max acc (lineNum (startOf points) (lastOf points) p)) 0

/-- Exact encoding of the real comparison `maxNum / (L > 0 ? L : 1) < c`
with `L = sqrt lsq`, for `maxNum ≥ 0` and `lsq ≥ 0`: when `lsq = 0` the
divisor is 1, otherwise the comparison is equivalent to
`0 < c ∧ maxNum^2 < c^2 * lsq` (proved in `lineDevLt_eq_real`). -/
def lineDevLt (maxNum lsq c : ℚ) : Bool :=
  if lsq = 0 then decide (maxNum < c)
  else decide (0 < c ∧ maxNum ^ 2 < c ^ 2 * lsq)

/-- Exact encoding of the real comparison `maxNum / (L > 0 ? L : 1) > c`
with `L = sqrt lsq`, for `maxNum ≥ 0` and `lsq ≥ 0` (proved equivalent
to the real formula in `lineDevGt_eq_real`). -/
def lineDevGt (maxNum lsq c : ℚ) : Bool :=
  if lsq = 0 then decide (c < maxNum)
  else decide (c < 0 ∨ c ^ 2 * lsq < maxNum ^ 2)

/-- CFreehandStroke::ShapeType. -/
inductive ShapeType where
  | None
  | Line
  | Ellipse
  | Curve
deriving DecidableEq, Repr

/-- The decision taken by `CFreehandStroke::Complement` for a point list
with at least two points: first the Ellipse branch
(`isEllipse && maxLineDeviation > 5.0f * LINE_TOLERANCE`), then the Line
branch (`maxLineDeviation < LINE_TOLERANCE`), then the Curve branch
(`m_points.size() > 10`), else no shape.  `LINE_TOLERANCE` is
`m_strokeWidth * 2.0f` and `ELLIPSE_FIT_TOLERANCE` is `10.0f`. -/
def strokeDecision (points : List D2D1_POINT_2F) (width : ℚ) : ShapeType :=
  let tol := width * 2
  let maxNum := maxLineNumOf points
  let lsq := lsqOf points
  if (FitEllipse points 10 zeroEllipse).1 && lineDevGt maxNum lsq (5 * tol) then
    ShapeType.Ellipse
  else if lineDevLt maxNum lsq tol then ShapeType.Line
  else if 10 < points.length then ShapeType.Curve
  else ShapeType.None

/-- CFreehandStroke: point list, color, stroke width and the mutable
classification state. -/
structure CFreehandStroke where
  m_points : List D2D1_POINT_2F
  m_color : D2D1_COLOR_F
  m_strokeWidth : ℚ
  m_isComplemented : Bool
  m_detectedShape : ShapeType
  m_complementEllipse : D2D1_ELLIPSE
deriving DecidableEq, Repr

/-- The CFreehandStroke constructor: empty point list,
`m_isComplemented = false`, and the in-class initialisers
`m_detectedShape = ShapeType::None`, `m_complementEllipse = { 0 }`. -/
def mkFreehandStroke (color : D2D1_COLOR_F) (width : ℚ) : CFreehandStroke :=
  ⟨[], color, width, false, ShapeType.None, zeroEllipse⟩

/-- CFreehandStroke::AddPoint: `m_points.push_back(p)`. -/
def CFreehandStroke.AddPoint (s : CFreehandStroke) (p : D2D1_POINT_2F) : CFreehandStroke :=
  { s with m_points := s.m_points ++ [p] }

/-- CFreehandStroke::Clone: a deep copy of all fields. -/
def CFreehandStroke.Clone (s : CFreehandStroke) : CFreehandStroke :=
  ⟨s.m_points, s.m_color, s.m_strokeWidth, s.m_isComplemented,
   s.m_detectedShape, s.m_complementEllipse⟩

/-- CFreehandStroke::Complement: returns unchanged for fewer than two
points; otherwise resets the classification state and applies the
first matching branch of `strokeDecision`.  Only the Ellipse branch
writes `m_complementEllipse` (with the fitted ellipse, i.e. the value of
the local `potentialEllipse` after the `FitEllipse` call); the Line and
Curve branches leave it untouched, and if no branch matches the reset at
the top of the function leaves `m_isComplemented = false`,
`m_detectedShape = None`. -/
def CFreehandStroke.Complement (s : CFreehandStroke) : CFreehandStroke :=
  if s.m_points.length < 2 then s
  else
    match strokeDecision s.m_points s.m_strokeWidth with
    | ShapeType.Ellipse =>
        { s with m_isComplemented := true, m_detectedShape := ShapeType.Ellipse,
                 m_complementEllipse := (FitEllipse s.m_points 10 zeroEllipse).2 }
    | ShapeType.Line =>
        { s with m_isComplemented := true, m_detectedShape := ShapeType.Line }
    | ShapeType.Curve =>
        { s with m_isComplemented := true, m_detectedShape := ShapeType.Curve }
    | ShapeType.None =>
        { s with m_isComplemented := false, m_detectedShape := ShapeType.None }

/-- CFreehandStroke::IsComplementable:
`m_isComplemented && m_detectedShape != ShapeType::None`. -/
def CFreehandStroke.IsComplementable (s : CFreehandStroke) : Bool :=
  s.m_isComplemented && decide (s.m_detectedShape ≠ ShapeType.None)

/-- IDrawableObject: the closed union over the three concrete drawables
(CFreehandStroke, CLineSegment, CEllipseSegment).  The line and ellipse
segments carry their immutable geometric description plus color and
stroke width, exactly the fields of the C++ classes. -/
inductive IDrawableObject where
  | stroke (s : CFreehandStroke)
  | lineSeg (m_start m_end : D2D1_POINT_2F) (m_color : D2D1_COLOR_F) (m_strokeWidth : ℚ)
  | ellipseSeg (m_ellipse : D2D1_ELLIPSE) (m_color : D2D1_COLOR_F) (m_strokeWidth : ℚ)
deriving DecidableEq, Repr

/-- IDrawableObject::Clone: the stroke clone copies every field, the
primitive clones rebuild the object from the same fields. -/
def IDrawableObject.Clone : IDrawableObject → IDrawableObject
  | .stroke s => .stroke s.Clone
  | .lineSeg a b c w => .lineSeg a b c w
  | .ellipseSeg e c w => .ellipseSeg e c w

/-- IDrawableObject::Complement: dispatches to
`CFreehandStroke::Complement` for strokes; for `CLineSegment` and
`CEllipseSegment` the override body is empty (a no-op). -/
def IDrawableObject.Complement : IDrawableObject → IDrawableObject
  | .stroke s => .stroke s.Complement
  | .lineSeg a b c w => .lineSeg a b c w
  | .ellipseSeg e c w => .ellipseSeg e c w

/-- IDrawableObject::IsComplementable: the stroke override, and the
constant-`false` overrides of `CLineSegment` and `CEllipseSegment`. -/
def IDrawableObject.IsComplementable : IDrawableObject → Bool
  | .stroke s => s.IsComplementable
  | .lineSeg _ _ _ _ => false
  | .ellipseSeg _ _ _ => false

/-- ICommand: the closed union over the two command classes.
`addObject` carries `m_object` and `m_index` of `CAddObjectCommand`
(the constructor initialises `m_index` to 0); `complement` carries
`m_index`, `m_originalObject` and `m_newObject` of
`CComplementCommand`. -/
inductive ICommand where
  | addObject (m_object : IDrawableObject) (m_index : ℕ)
  | complement (m_index : ℕ) (m_originalObject m_newObject : IDrawableObject)
deriving DecidableEq, Repr

/-- CDocument: the object list and the two command stacks.  A stack is a
list whose head is the top. -/
structure CDocument where
  m_objects : List IDrawableObject
  m_undoStack : List ICommand
  m_redoStack : List ICommand
deriving DecidableEq, Repr

/-- A freshly constructed CDocument (all containers empty). -/
def emptyDoc : CDocument := ⟨[], [], []⟩

/-- CDocument::ReplaceObject: `m_objects[index] = newObject` guarded by
`index < m_objects.size()`. -/
def CDocument.ReplaceObject (doc : CDocument) (index : ℕ)
    (newObject : IDrawableObject) : CDocument :=
  if index < doc.m_objects.length then
    { doc with m_objects := doc.m_objects.set index newObject }
  else doc

/-- CDocument::RemoveObjectAt: `m_objects.erase(begin + index)` guarded
by `index < m_objects.size()`. -/
def CDocument.RemoveObjectAt (doc : CDocument) (index : ℕ) : CDocument :=
  if index < doc.m_objects.length then
    { doc with m_objects := doc.m_objects.eraseIdx index }
  else doc

/-- CDocument::GetLastObjectIndex:
`m_objects.empty() ? 0 : m_objects.size() - 1`. -/
def CDocument.GetLastObjectIndex (doc : CDocument) : ℕ :=
  if doc.m_objects.isEmpty then 0 else doc.m_objects.length - 1

/-- CDocument::RecordCommand: pushes the command onto the undo stack
(and does nothing else — in particular it does not touch the redo
stack). -/
def CDocument.RecordCommand (doc : CDocument) (command : ICommand) : CDocument :=
  { doc with m_undoStack := command :: doc.m_undoStack }

/-- CDocument::AddObject: pushes the object onto the object list; when
`recordCommand` is true it additionally clears the redo stack and
records a `CAddObjectCommand` (whose constructor leaves `m_index = 0` —
`Execute` is not called on this path). -/
def CDocument.AddObject (doc : CDocument) (object : IDrawableObject)
    (recordCommand : Bool) : CDocument :=
  let doc1 := { doc with m_objects := doc.m_objects ++ [object] }
  if recordCommand then
    CDocument.RecordCommand { doc1 with m_redoStack := [] }
      (ICommand.addObject object 0)
  else doc1

/-- ICommand::Execute.  `CAddObjectCommand::Execute` only stores
`m_pDoc->GetLastObjectIndex()` into `m_index` (it does not modify the
document); `CComplementCommand::Execute` replaces the object at
`m_index` with `m_newObject`.  Because the add command mutates itself,
Execute returns the updated command together with the updated
document. -/
def ICommand.Execute : ICommand → CDocument → ICommand × CDocument
  | .addObject obj _, doc => (.addObject obj doc.GetLastObjectIndex, doc)
  | .complement idx orig newObj, doc =>
      (.complement idx orig newObj, doc.ReplaceObject idx newObj)

/-- ICommand::Undo.  `CAddObjectCommand::Undo` removes the object at the
recorded index; `CComplementCommand::Undo` restores the original object
at the recorded index. -/
def ICommand.Undo : ICommand → CDocument → ICommand × CDocument
  | .addObject obj idx, doc => (.addObject obj idx, doc.RemoveObjectAt idx)
  | .complement idx orig newObj, doc =>
      (.complement idx orig newObj, doc.ReplaceObject idx orig)

/-- CDocument::CanUndo. -/
def CDocument.CanUndo (doc : CDocument) : Bool := !doc.m_undoStack.isEmpty

/-- CDocument::CanRedo. -/
def CDocument.CanRedo (doc : CDocument) : Bool := !doc.m_redoStack.isEmpty

/-- CDocument::Undo: if the undo stack is nonempty, pop its top command,
run the command's Undo, and push the command onto the redo stack. -/
def CDocument.Undo (doc : CDocument) : CDocument :=
  match doc.m_undoStack with
  | [] => doc
  | command :: rest =>
      let r := command.Undo { doc with m_undoStack := rest }
      { r.2 with m_redoStack := r.1 :: r.2.m_redoStack }

/-- CDocument::Redo: if the redo stack is nonempty, pop its top command,
run the command's Execute, and push the command onto the undo stack. -/
def CDocument.Redo (doc : CDocument) : CDocument :=
  match doc.m_redoStack with
  | [] => doc
  | command :: rest =>
      let r := command.Execute { doc with m_redoStack := rest }
      { r.2 with m_undoStack := r.1 :: r.2.m_undoStack }

/-- The preview color `D2D1::ColorF(0.0f, 0.0f, 0.0f, 1.0f)` of the
WM_LBUTTONUP handler (also the stroke color used on WM_LBUTTONDOWN). -/
def previewColor : D2D1_COLOR_F := ⟨0, 0, 0, 1⟩

/-- The preview stroke width `3.0f` of the WM_LBUTTONUP handler (also
the width used on WM_LBUTTONDOWN). -/
def previewWidth : ℚ := 3

/-- The preview object built by the `switch (stroke->m_detectedShape)`
in the WM_LBUTTONUP handler (Source.cpp): a `CLineSegment` from the
stroke's first to its last point for `Line`, a `CEllipseSegment` from
`m_complementEllipse` for `Ellipse` and for `Curve`, and no preview in
the `default` case.  The source reads `GetPoints().front()` and
`GetPoints().back()` unconditionally on the Line path (where the point
list is nonempty); the unreachable empty-list case yields no preview. -/
def buildPreview (stroke : CFreehandStroke) : Option IDrawableObject :=
  match stroke.m_detectedShape with
  | ShapeType.Line =>
      match stroke.m_points.head?, stroke.m_points.getLast? with
      | some p, some q => some (.lineSeg p q previewColor previewWidth)
      | _, _ => Option.none
  | ShapeType.Ellipse => some (.ellipseSeg stroke.m_complementEllipse previewColor previewWidth)
  | ShapeType.Curve => some (.ellipseSeg stroke.m_complementEllipse previewColor previewWidth)
  | ShapeType.None => Option.none

/-- Steps 1–2 of the WM_LBUTTONUP handler (Source.cpp), guarded by
`GetPoints().size() > 1`: the stroke is added to the document *without*
recording (`AddObject(stroke, false)`), then a `CAddObjectCommand` is
constructed, its `Execute()` is called to capture the index, and the
command is recorded with `RecordCommand`.  Note that no step of this
flow touches the redo stack.  (Step 3, the complement preview, only
mutates the stroke's classification fields and the session preview
state, not the object list membership or the history stacks.) -/
def commitStroke (doc : CDocument) (stroke : CFreehandStroke) : CDocument :=
  if 1 < stroke.m_points.length then
    let doc1 := doc.AddObject (.stroke stroke) false
    let r := (ICommand.addObject (.stroke stroke) 0).Execute doc1
    r.2.RecordCommand r.1
  else doc

/-- The VK_TAB branch of the WM_KEYDOWN handler (Source.cpp): a
`CComplementCommand` is constructed from the staged preview triple,
executed, and recorded.  No step clears the redo stack. -/
def confirmPreview (doc : CDocument) (index : ℕ)
    (original newObj : IDrawableObject) : CDocument :=
  let r := (ICommand.complement index original newObj).Execute doc
  r.2.RecordCommand r.1

/-- A concrete two-point horizontal stroke, built through the
constructor and `AddPoint` as the pointer handlers do. -/
def strokeA : CFreehandStroke :=
  ((mkFreehandStroke previewColor 3).AddPoint ⟨0, 0⟩).AddPoint ⟨10, 0⟩

/-- A second concrete two-point stroke. -/
def strokeB : CFreehandStroke :=
  ((mkFreehandStroke previewColor 3).AddPoint ⟨0, 5⟩).AddPoint ⟨10, 5⟩

/-- Twelve zig-zag points: far from the first-to-last line, a bad
ellipse fit, and more than ten points — classified `Curve`. -/
def zigPoints : List D2D1_POINT_2F :=
  [⟨0, 0⟩, ⟨10, 50⟩, ⟨20, 0⟩, ⟨30, 50⟩, ⟨40, 0⟩, ⟨50, 50⟩,
   ⟨60, 0⟩, ⟨70, 50⟩, ⟨80, 0⟩, ⟨90, 50⟩, ⟨100, 0⟩, ⟨110, 50⟩]

/-- A freshly drawn stroke over `zigPoints` (the field values a stroke
has right after WM_LBUTTONDOWN/WM_MOUSEMOVE, before any complement). -/
def zigStroke : CFreehandStroke :=
  ⟨zigPoints, previewColor, 3, false, ShapeType.None, zeroEllipse⟩

/-- Five points on the circle of radius 100 centered at (100, 100),
with distinct first and last points — classified `Ellipse`. -/
def circlePoints : List D2D1_POINT_2F :=
  [⟨0, 100⟩, ⟨100, 0⟩, ⟨200, 100⟩, ⟨100, 200⟩, ⟨160, 180⟩]

/-- A freshly drawn stroke over `circlePoints`. -/
def circleStroke : CFreehandStroke :=
  ⟨circlePoints, previewColor, 3, false, ShapeType.None, zeroEllipse⟩

/-- C1: the claim states that after an executed-and-undone AddObject
command, Redo re-inserts the removed object at its original index.  The
code does not: `CAddObjectCommand::Execute` only stores
`GetLastObjectIndex()` into `m_index` and never inserts `m_object` into
the list (the insertion at commit time is done separately by
`AddObject(stroke, false)`), so replaying the command through
`CDocument::Redo` leaves the object list unchanged.  Concretely:
committing `strokeA` into an empty document yields the one-object list,
Undo empties it, and Redo — although it pops the redo stack, runs
`Execute()` and pushes the command onto the undo stack, exactly as the
spec describes — leaves the object list empty instead of re-inserting
the stroke at index 0. -/
theorem C1_redo_does_not_reinsert :
    (commitStroke emptyDoc strokeA).m_objects = [IDrawableObject.stroke strokeA] ∧
    ((commitStroke emptyDoc strokeA).Undo).m_objects = [] ∧
    (((commitStroke emptyDoc strokeA).Undo).Redo).m_objects = [] ∧
    (((commitStroke emptyDoc strokeA).Undo).Redo).m_redoStack = [] ∧
    (((commitStroke emptyDoc strokeA).Undo).Redo).m_undoStack ≠ [] := by
  refine ⟨by decide, by decide, by decide, by decide, by decide⟩

/-- C2: the claim states every fresh mutation leaves the redo stack
empty.  The code clears the redo stack only inside
`CDocument::AddObject` when called with `recordCommand = true`, a path
the program never takes: the WM_LBUTTONUP commit flow calls
`AddObject(stroke, false)` and then `RecordCommand` directly, and the
VK_TAB confirm flow also records through `RecordCommand`; neither
touches the redo stack.  Concretely: commit `strokeA`, Undo (redo stack
now holds the add command), then commit the fresh stroke `strokeB` —
`CanRedo()` is still true, and the stale add command is still on the
redo stack. -/
theorem C2_fresh_commit_leaves_redo_stack :
    (commitStroke ((commitStroke emptyDoc strokeA).Undo) strokeB).CanRedo = true ∧
    (commitStroke ((commitStroke emptyDoc strokeA).Undo) strokeB).m_redoStack =
      [ICommand.addObject (IDrawableObject.stroke strokeA) 0] ∧
    (confirmPreview ((commitStroke emptyDoc strokeA).Undo) 0
      (IDrawableObject.stroke strokeA)
      (IDrawableObject.lineSeg ⟨0, 0⟩ ⟨10, 0⟩ previewColor previewWidth)).CanRedo = true := by
  refine ⟨by decide, by decide, by decide⟩

/-- C3: the claim states that undoing N AddObject/ReplaceObjectAt
commands and then redoing all N reproduces the original object list.
Already for N = 1 with a single AddObject command this fails, for the
same reason as C1: `CAddObjectCommand::Execute` does not re-insert the
object, so Undo-then-Redo ends with an empty list instead of the
original one-element list. -/
theorem C3_undo_redo_not_symmetric :
    (((commitStroke emptyDoc strokeA).Undo).Redo).m_objects ≠
      (commitStroke emptyDoc strokeA).m_objects := by
  decide

/-- C7: every boundary condition is a silent no-op: Undo on an empty
undo stack and Redo on an empty redo stack return the document
unchanged, and ReplaceObject / RemoveObjectAt with an index at or beyond
the list length are skipped by the `index < m_objects.size()` guards.
All four operations are total functions (no error signalling). -/
theorem C7_boundary_conditions_are_noops (doc : CDocument) :
    (doc.m_undoStack = [] → doc.Undo = doc) ∧
    (doc.m_redoStack = [] → doc.Redo = doc) ∧
    (∀ i obj, doc.m_objects.length ≤ i → doc.ReplaceObject i obj = doc) ∧
    (∀ i, doc.m_objects.length ≤ i → doc.RemoveObjectAt i = doc) := by
  refine ⟨?_, ?_, ?_, ?_⟩
  · intro h
    unfold CDocument.Undo
    rw [h]
  · intro h
    unfold CDocument.Redo
    rw [h]
  · intro i obj h
    unfold CDocument.ReplaceObject
    rw [if_neg (by omega)]
  · intro i h
    unfold CDocument.RemoveObjectAt
    rw [if_neg (by omega)]

/-- Witness for C7 at a concrete document. -/
theorem C7_witness :
    emptyDoc.Undo = emptyDoc ∧ emptyDoc.Redo = emptyDoc ∧
    emptyDoc.ReplaceObject 0 (IDrawableObject.ellipseSeg zeroEllipse previewColor 3) =
      emptyDoc ∧
    emptyDoc.RemoveObjectAt 3 = emptyDoc :=
  ⟨(C7_boundary_conditions_are_noops emptyDoc).1 rfl,
   (C7_boundary_conditions_are_noops emptyDoc).2.1 rfl,
   (C7_boundary_conditions_are_noops emptyDoc).2.2.1 0 _ (by decide),
   (C7_boundary_conditions_are_noops emptyDoc).2.2.2 3 (by decide)⟩

/-- C10: `GetLastObjectIndex` returns 0 on an empty list — the same
value as on a one-element list — and `m_objects.size() - 1` otherwise;
consequently `CAddObjectCommand::Execute` run against an empty document
records index 0 instead of failing. -/
theorem C10_last_index_empty_collision (doc : CDocument) (obj : IDrawableObject) (i : ℕ) :
    (doc.m_objects = [] → doc.GetLastObjectIndex = 0) ∧
    (∀ o, doc.m_objects = [o] → doc.GetLastObjectIndex = 0) ∧
    (doc.m_objects ≠ [] → doc.GetLastObjectIndex = doc.m_objects.length - 1) ∧
    (doc.m_objects = [] →
      ((ICommand.addObject obj i).Execute doc).1 = ICommand.addObject obj 0) := by
  refine ⟨?_, ?_, ?_, ?_⟩
  · intro h
    simp [CDocument.GetLastObjectIndex, h]
  · intro o h
    simp [CDocument.GetLastObjectIndex, h]
  · intro h
    simp [CDocument.GetLastObjectIndex, h]
  · intro h
    simp [ICommand.Execute, CDocument.GetLastObjectIndex, h]

/-- Witness for C10 at concrete documents. -/
theorem C10_witness :
    emptyDoc.GetLastObjectIndex = 0 ∧
    (CDocument.mk [IDrawableObject.stroke strokeA] [] []).GetLastObjectIndex = 0 ∧
    ((ICommand.addObject (IDrawableObject.stroke strokeA) 7).Execute emptyDoc).1 =
      ICommand.addObject (IDrawableObject.stroke strokeA) 0 :=
  ⟨(C10_last_index_empty_collision emptyDoc (IDrawableObject.stroke strokeA) 7).1 rfl,
   (C10_last_index_empty_collision (CDocument.mk [IDrawableObject.stroke strokeA] [] [])
      (IDrawableObject.stroke strokeA) 7).2.1 _ rfl,
   (C10_last_index_empty_collision emptyDoc (IDrawableObject.stroke strokeA) 7).2.2.2 rfl⟩

/-- Complement never modifies the point list. -/
theorem Complement_m_points (s : CFreehandStroke) : (s.Complement).m_points = s.m_points := by
  unfold CFreehandStroke.Complement
  split
  · rfl
  · split <;> rfl

/-- Complement never modifies the stroke width. -/
theorem Complement_m_strokeWidth (s : CFreehandStroke) :
    (s.Complement).m_strokeWidth = s.m_strokeWidth := by
  unfold CFreehandStroke.Complement
  split
  · rfl
  · split <;> rfl

/-- Complement never modifies the color. -/
theorem Complement_m_color (s : CFreehandStroke) : (s.Complement).m_color = s.m_color := by
  unfold CFreehandStroke.Complement
  split
  · rfl
  · split <;> rfl

/-- Unfolding of Complement for a stroke with at least two points: the
classification state is rewritten according to `strokeDecision`. -/
theorem Complement_char (s : CFreehandStroke) (h : 2 ≤ s.m_points.length) :
    s.Complement = match strokeDecision s.m_points s.m_strokeWidth with
      | ShapeType.Ellipse =>
          { s with m_isComplemented := true, m_detectedShape := ShapeType.Ellipse,
                   m_complementEllipse := (FitEllipse s.m_points 10 zeroEllipse).2 }
      | ShapeType.Line =>
          { s with m_isComplemented := true, m_detectedShape := ShapeType.Line }
      | ShapeType.Curve =>
          { s with m_isComplemented := true, m_detectedShape := ShapeType.Curve }
      | ShapeType.None =>
          { s with m_isComplemented := false, m_detectedShape := ShapeType.None } := by
  unfold CFreehandStroke.Complement
  rw [if_neg (by omega)]

/-- C9: Complement is idempotent on a stroke with at least two points:
the second call resets the classification state and recomputes it from
`m_points` and `m_strokeWidth`, which the first call left untouched, so
it takes the same branch and rewrites the same values (the stored
ellipse is rewritten identically in the Ellipse branch and untouched in
every other branch). -/
theorem C9_complement_idempotent (s : CFreehandStroke) (h : 2 ≤ s.m_points.length) :
    s.Complement.Complement = s.Complement := by
  have hp := Complement_m_points s
  have hw := Complement_m_strokeWidth s
  have h2 : 2 ≤ (s.Complement).m_points.length := by rw [hp]; exact h
  rw [Complement_char (s.Complement) h2, hp, hw]
  cases hd : strokeDecision s.m_points s.m_strokeWidth
  all_goals simp only [hd]
  all_goals rw [Complement_char s h, hd]

/-- Witness for C9 at two concrete strokes. -/
theorem C9_witness :
    2 ≤ zigStroke.m_points.length ∧
    zigStroke.Complement.Complement = zigStroke.Complement ∧
    strokeA.Complement.Complement = strokeA.Complement :=
  ⟨by decide, C9_complement_idempotent zigStroke (by decide),
   C9_complement_idempotent strokeA (by decide)⟩

/-- The stroke states reachable by any sequence of the stroke
operations: construction, AddPoint, Complement, Clone. -/
inductive StrokeReachable : CFreehandStroke → Prop
  | init (color : D2D1_COLOR_F) (width : ℚ) : StrokeReachable (mkFreehandStroke color width)
  | addPoint (s : CFreehandStroke) (p : D2D1_POINT_2F) :
      StrokeReachable s → StrokeReachable (s.AddPoint p)
  | compl (s : CFreehandStroke) : StrokeReachable s → StrokeReachable s.Complement
  | clone (s : CFreehandStroke) : StrokeReachable s → StrokeReachable s.Clone

/-- Complement preserves the shape/flag invariant. -/
theorem Complement_preserves_inv (s : CFreehandStroke)
    (ih : s.m_detectedShape ≠ ShapeType.None → s.m_isComplemented = true) :
    (s.Complement).m_detectedShape ≠ ShapeType.None →
      (s.Complement).m_isComplemented = true := by
  unfold CFreehandStroke.Complement
  split
  · exact ih
  · split <;> simp

/-- C8: on every reachable stroke state, `detectedShape ≠ None` implies
`complemented = true`; `IsComplementable` returns true exactly when the
flag is set and a shape was detected; and the primitive objects
(CLineSegment, CEllipseSegment) always report not complementable and
their Complement override is a no-op. -/
theorem C8_complementable_invariant :
    (∀ s : CFreehandStroke, StrokeReachable s →
      s.m_detectedShape ≠ ShapeType.None → s.m_isComplemented = true) ∧
    (∀ s : CFreehandStroke,
      s.IsComplementable = true ↔
        (s.m_isComplemented = true ∧ s.m_detectedShape ≠ ShapeType.None)) ∧
    (∀ a b c w, (IDrawableObject.lineSeg a b c w).IsComplementable = false ∧
      (IDrawableObject.lineSeg a b c w).Complement = IDrawableObject.lineSeg a b c w) ∧
    (∀ e c w, (IDrawableObject.ellipseSeg e c w).IsComplementable = false ∧
      (IDrawableObject.ellipseSeg e c w).Complement = IDrawableObject.ellipseSeg e c w) := by
  refine ⟨?_, ?_, ?_, ?_⟩
  · intro s hs
    induction hs with
    | init c w => simp [mkFreehandStroke]
    | addPoint s p _ ih => simpa [CFreehandStroke.AddPoint] using ih
    | compl s _ ih => exact Complement_preserves_inv s ih
    | clone s _ ih => simpa [CFreehandStroke.Clone] using ih
  · intro s
    simp [CFreehandStroke.IsComplementable]
  · intro a b c w
    exact ⟨rfl, rfl⟩
  · intro e c w
    exact ⟨rfl, rfl⟩

/-- Concrete evaluation: the two-point horizontal stroke classifies as
a Line (its maximum deviation numerator is 0). -/
theorem strokeA_complement_shape : strokeA.Complement.m_detectedShape = ShapeType.Line := by
  norm_num [CFreehandStroke.Complement, strokeDecision, FitEllipse, lineDevLt,
    lineDevGt, maxLineNumOf, lineNum, lsqOf, startOf, lastOf, minXOf, maxXOf, minYOf,
    maxYOf, centerXOf, centerYOf, radiusXOf, radiusYOf, maxNormDevOf, normDev,
    strokeA, mkFreehandStroke, CFreehandStroke.AddPoint, zeroEllipse, List.foldl]

/-- Witness for C8: a classified two-point stroke, reached through the
constructor, two AddPoint calls and Complement. -/
theorem C8_witness :
    strokeA.Complement.m_isComplemented = true ∧
    (strokeA.Complement.IsComplementable = true ↔
      (strokeA.Complement.m_isComplemented = true ∧
        strokeA.Complement.m_detectedShape ≠ ShapeType.None)) ∧
    (IDrawableObject.lineSeg ⟨0, 0⟩ ⟨10, 0⟩ previewColor 3).IsComplementable = false :=
  ⟨C8_complementable_invariant.1 strokeA.Complement
    (StrokeReachable.compl strokeA
      (StrokeReachable.addPoint _ _
        (StrokeReachable.addPoint _ _ (StrokeReachable.init previewColor 3))))
    (by rw [strokeA_complement_shape]; decide),
   C8_complementable_invariant.2.1 strokeA.Complement,
   (C8_complementable_invariant.2.2.1 ⟨0, 0⟩ ⟨10, 0⟩ previewColor 3).1⟩

/-- A fold of `max` starting from `b` stays below `c` exactly when `b`
and every folded value do. -/
theorem foldl_max_lt_iff {α : Type} (f : α → ℚ) (c : ℚ) (l : List α) (b : ℚ) :
    l.foldl (fun acc x => max acc (f x)) b < c ↔ b < c ∧ ∀ x ∈ l, f x < c := by
  induction l generalizing b with
  | nil => simp
  | cons y ys ih =>
      simp only [List.foldl_cons, ih, max_lt_iff, List.mem_cons]
      constructor
      · rintro ⟨⟨h1, h2⟩, h3⟩
        exact ⟨h1, fun x hx => hx.elim (fun he => he ▸ h2) (h3 x)⟩
      · rintro ⟨h1, h2⟩
        exact ⟨⟨h1, h2 y (Or.inl rfl)⟩, fun x hx => h2 x (Or.inr hx)⟩

/-- A fold of `max` starting from `b` exceeds `c` exactly when `b` or
some folded value does. -/
theorem lt_foldl_max_iff {α : Type} (f : α → ℚ) (c : ℚ) (l : List α) (b : ℚ) :
    c < l.foldl (fun acc x => max acc (f x)) b ↔ c < b ∨ ∃ x ∈ l, c < f x := by
  induction l generalizing b with
  | nil => simp
  | cons y ys ih =>
      simp only [List.foldl_cons, ih, lt_max_iff, List.mem_cons]
      constructor
      · rintro (⟨h1 | h1⟩ | ⟨x, hx, h1⟩)
        · exact Or.inl h1
        · exact Or.inr ⟨y, Or.inl rfl, h1⟩
        · exact Or.inr ⟨x, Or.inr hx, h1⟩
      · rintro (h1 | ⟨x, (rfl | hx), h1⟩)
        · exact Or.inl (Or.inl h1)
        · exact Or.inl (Or.inr h1)
        · exact Or.inr ⟨x, hx, h1⟩

/-- The FitEllipse success condition, unfolded into a conjunction: at
least five points, both bounding-box radii at least 10, and every
point's normalized deviation strictly below 0.2. -/
theorem FitEllipse_fst_iff (points : List D2D1_POINT_2F) (tol : ℚ) (e0 : D2D1_ELLIPSE) :
    (FitEllipse points tol e0).1 = true ↔
      (5 ≤ points.length ∧ 10 ≤ radiusXOf points ∧ 10 ≤ radiusYOf points ∧
        ∀ p ∈ points, normDev (centerXOf points) (centerYOf points)
          (radiusXOf points) (radiusYOf points) p < 1/5) := by
  unfold FitEllipse
  split_ifs with h1 h2
  · simp only [Bool.false_eq_true, false_iff]
    rintro ⟨hc, -⟩
    omega
  · simp only [Bool.false_eq_true, false_iff]
    rintro ⟨-, hx, hy, -⟩
    rcases h2 with h2 | h2 <;> linarith
  · push_neg at h2
    simp only [decide_eq_true_eq]
    unfold maxNormDevOf
    rw [foldl_max_lt_iff]
    constructor
    · rintro ⟨-, hp⟩
      exact ⟨by omega, by linarith [h2.1], by linarith [h2.2], hp⟩
    · rintro ⟨-, -, -, hp⟩
      exact ⟨by norm_num, hp⟩

/-- On success, FitEllipse writes exactly the bounding-box ellipse into
the out-parameter. -/
theorem FitEllipse_snd (points : List D2D1_POINT_2F) (tol : ℚ) (e0 : D2D1_ELLIPSE)
    (h : (FitEllipse points tol e0).1 = true) :
    (FitEllipse points tol e0).2 =
      ⟨⟨centerXOf points, centerYOf points⟩, radiusXOf points, radiusYOf points⟩ := by
  unfold FitEllipse at h ⊢
  split_ifs at h ⊢
  all_goals simp_all

/-- C5: the ellipse test succeeds exactly when the sequence has at
least 5 points, both bounding-box radii are at least 10, and the
maximum normalized deviation over all points is strictly below 0.2
(expressed as: every point's deviation is below 0.2 — equivalent to the
maximum being below 0.2 since the threshold is positive); and on
success the fitted parameters are exactly the bounding-box center and
radii. -/
theorem C5_fit_ellipse_characterization (points : List D2D1_POINT_2F) (tol : ℚ)
    (e0 : D2D1_ELLIPSE) :
    ((FitEllipse points tol e0).1 = true ↔
      (5 ≤ points.length ∧ 10 ≤ radiusXOf points ∧ 10 ≤ radiusYOf points ∧
        ∀ p ∈ points, normDev (centerXOf points) (centerYOf points)
          (radiusXOf points) (radiusYOf points) p < 1/5)) ∧
    ((FitEllipse points tol e0).1 = true →
      (FitEllipse points tol e0).2 =
        ⟨⟨centerXOf points, centerYOf points⟩, radiusXOf points, radiusYOf points⟩) :=
  ⟨FitEllipse_fst_iff points tol e0, FitEllipse_snd points tol e0⟩

/-- Concrete evaluation: the five circle points pass the ellipse test. -/
theorem fitEllipse_circle_succeeds : (FitEllipse circlePoints 10 zeroEllipse).1 = true := by
  norm_num [FitEllipse, minXOf, maxXOf, minYOf, maxYOf, centerXOf, centerYOf,
    radiusXOf, radiusYOf, maxNormDevOf, normDev, circlePoints, List.foldl]

/-- Witness for C5 at the concrete circle points. -/
theorem C5_witness :
    (FitEllipse circlePoints 10 zeroEllipse).2 =
      ⟨⟨centerXOf circlePoints, centerYOf circlePoints⟩, radiusXOf circlePoints,
        radiusYOf circlePoints⟩ ∧
    (5 ≤ circlePoints.length ∧ 10 ≤ radiusXOf circlePoints ∧
      10 ≤ radiusYOf circlePoints ∧
      ∀ p ∈ circlePoints, normDev (centerXOf circlePoints) (centerYOf circlePoints)
        (radiusXOf circlePoints) (radiusYOf circlePoints) p < 1/5) :=
  ⟨(C5_fit_ellipse_characterization circlePoints 10 zeroEllipse).2
      fitEllipse_circle_succeeds,
   (C5_fit_ellipse_characterization circlePoints 10 zeroEllipse).1.mp
      fitEllipse_circle_succeeds⟩

/-- The specification's "ellipse-like" test, stated in its own words:
at least five points, both bounding-box radii at least 10 distance
units, and every point's normalized deviation `|nx²+ny²-1|` strictly
below 0.2.  Used to state the classification decision order of C4 in
the spec's vocabulary. -/
def specEllipseLike (points : List D2D1_POINT_2F) : Prop :=
  5 ≤ points.length ∧ 10 ≤ radiusXOf points ∧ 10 ≤ radiusYOf points ∧
  ∀ p ∈ points, normDev (centerXOf points) (centerYOf points)
    (radiusXOf points) (radiusYOf points) p < 1/5

instance specEllipseLikeDec (points : List D2D1_POINT_2F) :
    Decidable (specEllipseLike points) := by
  unfold specEllipseLike
  infer_instance

/-- The classification decision order exactly as the specification
states it (first match wins): fewer than two points yields None;
ellipse-like and maxLineDeviation > 5 × lineTolerance yields Ellipse;
maxLineDeviation < lineTolerance yields Line; more than 10 points
yields Curve; otherwise None.  The line tolerance is 2 × strokeWidth,
and the two deviation comparisons are the exact square encodings of the
real formulas (`lineDevGt` / `lineDevLt`). -/
def specClassify (points : List D2D1_POINT_2F) (width : ℚ) : ShapeType :=
  if points.length < 2 then ShapeType.None
  else if specEllipseLike points ∧
      lineDevGt (maxLineNumOf points) (lsqOf points) (5 * (width * 2)) = true then
    ShapeType.Ellipse
  else if lineDevLt (maxLineNumOf points) (lsqOf points) (width * 2) = true then
    ShapeType.Line
  else if 10 < points.length then ShapeType.Curve
  else ShapeType.None

/-- The code's decision agrees with the spec-worded decision order on
every point list with at least two points. -/
theorem strokeDecision_eq_specClassify (points : List D2D1_POINT_2F) (width : ℚ)
    (h : 2 ≤ points.length) :
    strokeDecision points width = specClassify points width := by
  simp only [strokeDecision, specClassify]
  rw [if_neg (by omega : ¬ points.length < 2)]
  refine if_congr ?_ rfl rfl
  rw [Bool.and_eq_true, FitEllipse_fst_iff]
  unfold specEllipseLike
  exact Iff.rfl

/-- C4: classification follows the spec's first-match decision order:
fewer than two points is a no-op (so the result stays None for a fresh
stroke); otherwise the detected shape equals `specClassify` (Ellipse
before Line before Curve before None, with the stated conditions); and
when the result is Line, the parameters used for the resulting segment
are exactly the first and last point of the sequence (as built by the
preview construction). -/
theorem C4_decision_order (s : CFreehandStroke) :
    (s.m_points.length < 2 → s.Complement = s) ∧
    (2 ≤ s.m_points.length →
      (s.Complement).m_detectedShape = specClassify s.m_points s.m_strokeWidth) ∧
    (2 ≤ s.m_points.length → (s.Complement).m_detectedShape = ShapeType.Line →
      buildPreview s.Complement =
        some (IDrawableObject.lineSeg (startOf s.m_points) (lastOf s.m_points)
          previewColor previewWidth)) := by
  refine ⟨?_, ?_, ?_⟩
  · intro h
    unfold CFreehandStroke.Complement
    rw [if_pos h]
  · intro h
    rw [Complement_char s h, ← strokeDecision_eq_specClassify s.m_points s.m_strokeWidth h]
    cases hd : strokeDecision s.m_points s.m_strokeWidth <;> simp [hd]
  · intro h hline
    have hp := Complement_m_points s
    rcases hpts : s.m_points with _ | ⟨p, ps⟩
    · rw [hpts] at h
      simp at h
    · have hq : ∃ q, (p :: ps).getLast? = some q := by
        cases hql : (p :: ps).getLast? with
        | none => simp at hql
        | some q => exact ⟨q, rfl⟩
      obtain ⟨q, hq⟩ := hq
      unfold buildPreview
      rw [hline, hp, hpts]
      simp [hq, startOf, lastOf, List.getLastD_eq_getLast?]

/-- Witness for C4 at the concrete two-point stroke (classified Line). -/
theorem C4_witness :
    (strokeA.Complement).m_detectedShape =
      specClassify strokeA.m_points strokeA.m_strokeWidth ∧
    buildPreview strokeA.Complement =
      some (IDrawableObject.lineSeg (startOf strokeA.m_points) (lastOf strokeA.m_points)
        previewColor previewWidth) :=
  ⟨(C4_decision_order strokeA).2.1 (by decide),
   (C4_decision_order strokeA).2.2 (by decide) strokeA_complement_shape⟩

set_option maxHeartbeats 2000000 in
/-- Concrete evaluation: the freshly drawn zig-zag stroke classifies as
Curve and its classification leaves `m_complementEllipse` at the zero
ellipse. -/
theorem zigStroke_complement_eval : zigStroke.Complement = { zigStroke with
    m_isComplemented := true, m_detectedShape := ShapeType.Curve } := by
  norm_num [CFreehandStroke.Complement, strokeDecision, FitEllipse, lineDevLt,
    lineDevGt, maxLineNumOf, lineNum, lsqOf, startOf, lastOf, minXOf, maxXOf, minYOf,
    maxYOf, centerXOf, centerYOf, radiusXOf, radiusYOf, maxNormDevOf, normDev,
    zigStroke, zigPoints, zeroEllipse, List.foldl]

set_option maxHeartbeats 1000000 in
/-- Concrete evaluation: the bounding-box ellipse of the zig-zag points
is centered at (55, 25) with radii 55 and 25 (both at least 10, so a
fitted bounding-box ellipse exists and is not the zero ellipse). -/
theorem zigPoints_bbox_eval :
    (⟨⟨centerXOf zigPoints, centerYOf zigPoints⟩, radiusXOf zigPoints,
      radiusYOf zigPoints⟩ : D2D1_ELLIPSE) = ⟨⟨55, 25⟩, 55, 25⟩ := by
  norm_num [minXOf, maxXOf, minYOf, maxYOf, centerXOf, centerYOf,
    radiusXOf, radiusYOf, zigPoints, List.foldl]

set_option maxHeartbeats 2000000 in
/-- Concrete evaluation: the freshly drawn circle stroke classifies as
Ellipse and stores the fitted bounding-box ellipse. -/
theorem circleStroke_complement_eval : circleStroke.Complement = { circleStroke with
    m_isComplemented := true, m_detectedShape := ShapeType.Ellipse,
    m_complementEllipse := ⟨⟨100, 100⟩, 100, 100⟩ } := by
  norm_num [CFreehandStroke.Complement, strokeDecision, FitEllipse, lineDevLt,
    lineDevGt, maxLineNumOf, lineNum, lsqOf, startOf, lastOf, minXOf, maxXOf, minYOf,
    maxYOf, centerXOf, centerYOf, radiusXOf, radiusYOf, maxNormDevOf, normDev,
    circleStroke, circlePoints, zeroEllipse, List.foldl]

/-- C6 counterexample: the claim states that a stroke classified Curve
carries the fitted bounding-box ellipse parameters.  The Curve branch
of `CFreehandStroke::Complement` writes only the flag and the shape —
never `m_complementEllipse` — so the freshly drawn zig-zag stroke is
classified Curve while `m_complementEllipse` remains the zero ellipse,
which differs from its bounding-box ellipse ⟨(55, 25), 55, 25⟩. -/
theorem C6_counterexample :
    zigStroke.Complement.m_detectedShape = ShapeType.Curve ∧
    zigStroke.Complement.m_complementEllipse = zeroEllipse ∧
    (⟨⟨centerXOf zigStroke.m_points, centerYOf zigStroke.m_points⟩,
      radiusXOf zigStroke.m_points, radiusYOf zigStroke.m_points⟩ : D2D1_ELLIPSE) =
      ⟨⟨55, 25⟩, 55, 25⟩ ∧
    zigStroke.Complement.m_complementEllipse ≠
      ⟨⟨centerXOf zigStroke.m_points, centerYOf zigStroke.m_points⟩,
        radiusXOf zigStroke.m_points, radiusYOf zigStroke.m_points⟩ := by
  have hb : (⟨⟨centerXOf zigStroke.m_points, centerYOf zigStroke.m_points⟩,
      radiusXOf zigStroke.m_points, radiusYOf zigStroke.m_points⟩ : D2D1_ELLIPSE) =
      ⟨⟨55, 25⟩, 55, 25⟩ := zigPoints_bbox_eval
  refine ⟨?_, ?_, hb, ?_⟩
  · rw [zigStroke_complement_eval]
  · rw [zigStroke_complement_eval]
    rfl
  · rw [zigStroke_complement_eval, hb]
    decide

/-- C6 (amended): when Complement classifies a stroke with at least two
points as Ellipse it stores the fitted bounding-box ellipse on the
stroke; when it classifies Curve it leaves `m_complementEllipse`
unchanged (the zero ellipse for a freshly drawn stroke); and the
preview for a stroke whose detected shape is Ellipse or Curve is built
from whatever `m_complementEllipse` currently holds. -/
theorem C6_amended (s : CFreehandStroke) (h : 2 ≤ s.m_points.length) :
    ((s.Complement).m_detectedShape = ShapeType.Ellipse →
      (s.Complement).m_complementEllipse = (FitEllipse s.m_points 10 zeroEllipse).2) ∧
    ((s.Complement).m_detectedShape = ShapeType.Curve →
      (s.Complement).m_complementEllipse = s.m_complementEllipse) ∧
    (∀ t : CFreehandStroke,
      (t.m_detectedShape = ShapeType.Ellipse ∨ t.m_detectedShape = ShapeType.Curve) →
      buildPreview t = some (IDrawableObject.ellipseSeg t.m_complementEllipse
        previewColor previewWidth)) := by
  refine ⟨?_, ?_, ?_⟩
  · rw [Complement_char s h]
    cases hd : strokeDecision s.m_points s.m_strokeWidth <;> simp [hd]
  · rw [Complement_char s h]
    cases hd : strokeDecision s.m_points s.m_strokeWidth <;> simp [hd]
  · intro t ht
    unfold buildPreview
    rcases ht with h1 | h1 <;> rw [h1]

/-- Witness for C6 at the concrete circle stroke (Ellipse branch) and
zig-zag stroke (Curve branch). -/
theorem C6_witness :
    circleStroke.Complement.m_complementEllipse =
      (FitEllipse circleStroke.m_points 10 zeroEllipse).2 ∧
    zigStroke.Complement.m_complementEllipse = zigStroke.m_complementEllipse ∧
    buildPreview zigStroke.Complement =
      some (IDrawableObject.ellipseSeg zigStroke.Complement.m_complementEllipse
        previewColor previewWidth) :=
  ⟨(C6_amended circleStroke (by decide)).1 (by rw [circleStroke_complement_eval]),
   (C6_amended zigStroke (by decide)).2.1 (by rw [zigStroke_complement_eval]),
   (C6_amended zigStroke (by decide)).2.2 zigStroke.Complement
     (Or.inr (by rw [zigStroke_complement_eval]))⟩

/-- The square encoding `lineDevLt` agrees with the real comparison it
stands for: `maxNum / (L > 0 ? L : 1) < c` with `L = Real.sqrt lsq`,
for the nonnegative `maxNum` and `lsq` the code supplies. -/
theorem lineDevLt_eq_real (maxNum lsq c : ℚ) (hm : 0 ≤ maxNum) (hl : 0 ≤ lsq) :
    (lineDevLt maxNum lsq c = true ↔
      (maxNum : ℝ) / (if 0 < Real.sqrt (lsq : ℝ) then Real.sqrt (lsq : ℝ) else 1)
        < (c : ℝ)) := by
  unfold lineDevLt
  rcases eq_or_lt_of_le hl with h0 | h0
  · rw [if_pos h0.symm, ← h0]
    push_cast
    rw [Real.sqrt_zero, if_neg (lt_irrefl 0), div_one]
    simp [Rat.cast_lt]
  · have hs : 0 < Real.sqrt (lsq : ℝ) := Real.sqrt_pos.mpr (by exact_mod_cast h0)
    have hs2 : Real.sqrt (lsq : ℝ) ^ 2 = (lsq : ℝ) := Real.sq_sqrt (by positivity)
    rw [if_neg h0.ne', if_pos hs, div_lt_iff₀ hs, decide_eq_true_eq]
    constructor
    · rintro ⟨hc, hsq⟩
      have hcr : (0 : ℝ) < (c : ℝ) := by exact_mod_cast hc
      have h1 : (maxNum : ℝ) ^ 2 < ((c : ℝ) * Real.sqrt (lsq : ℝ)) ^ 2 := by
        rw [mul_pow, hs2]
        exact_mod_cast hsq
      exact lt_of_pow_lt_pow_left₀ 2 (mul_nonneg hcr.le (Real.sqrt_nonneg _)) h1
    · intro h1
      have hmr : (0 : ℝ) ≤ (maxNum : ℝ) := by exact_mod_cast hm
      have hcs : (0 : ℝ) < (c : ℝ) * Real.sqrt (lsq : ℝ) := lt_of_le_of_lt hmr h1
      have hc : (0 : ℝ) < (c : ℝ) := by nlinarith [hs]
      refine ⟨by exact_mod_cast hc, ?_⟩
      have h2 : (maxNum : ℝ) ^ 2 < ((c : ℝ) * Real.sqrt (lsq : ℝ)) ^ 2 :=
        pow_lt_pow_left₀ h1 hmr (by norm_num)
      rw [mul_pow, hs2] at h2
      exact_mod_cast h2

/-- The square encoding `lineDevGt` agrees with the real comparison it
stands for: `maxNum / (L > 0 ? L : 1) > c` with `L = Real.sqrt lsq`,
for the nonnegative `maxNum` and `lsq` the code supplies. -/
theorem lineDevGt_eq_real (maxNum lsq c : ℚ) (hm : 0 ≤ maxNum) (hl : 0 ≤ lsq) :
    (lineDevGt maxNum lsq c = true ↔
      (c : ℝ) < (maxNum : ℝ) /
        (if 0 < Real.sqrt (lsq : ℝ) then Real.sqrt (lsq : ℝ) else 1)) := by
  unfold lineDevGt
  rcases eq_or_lt_of_le hl with h0 | h0
  · rw [if_pos h0.symm, ← h0]
    push_cast
    rw [Real.sqrt_zero, if_neg (lt_irrefl 0), div_one]
    simp [Rat.cast_lt]
  · have hs : 0 < Real.sqrt (lsq : ℝ) := Real.sqrt_pos.mpr (by exact_mod_cast h0)
    have hs2 : Real.sqrt (lsq : ℝ) ^ 2 = (lsq : ℝ) := Real.sq_sqrt (by positivity)
    have hmr : (0 : ℝ) ≤ (maxNum : ℝ) := by exact_mod_cast hm
    rw [if_neg h0.ne', if_pos hs, lt_div_iff₀ hs, decide_eq_true_eq]
    constructor
    · rintro (hc | hsq)
      · have hcr : (c : ℝ) < 0 := by exact_mod_cast hc
        calc (c : ℝ) * Real.sqrt (lsq : ℝ) < 0 := mul_neg_of_neg_of_pos hcr hs
        _ ≤ (maxNum : ℝ) := hmr
      · rcases lt_or_le c 0 with hc | hc
        · calc (c : ℝ) * Real.sqrt (lsq : ℝ) < 0 :=
            mul_neg_of_neg_of_pos (by exact_mod_cast hc) hs
          _ ≤ (maxNum : ℝ) := hmr
        · have hcr : (0 : ℝ) ≤ (c : ℝ) := by exact_mod_cast hc
          have h1 : ((c : ℝ) * Real.sqrt (lsq : ℝ)) ^ 2 < (maxNum : ℝ) ^ 2 := by
            rw [mul_pow, hs2]
            exact_mod_cast hsq
          exact lt_of_pow_lt_pow_left₀ 2 hmr h1
    · intro h1
      rcases lt_or_le c 0 with hc | hc
      · exact Or.inl (by exact_mod_cast hc)
      · have hcr : (0 : ℝ) ≤ (c : ℝ) := by exact_mod_cast hc
        have h2 : ((c : ℝ) * Real.sqrt (lsq : ℝ)) ^ 2 < (maxNum : ℝ) ^ 2 :=
          pow_lt_pow_left₀ h1 (by positivity) (by norm_num)
        rw [mul_pow, hs2] at h2
        exact Or.inr (by exact_mod_cast h2)
